import Mathlib

/-!
Shallow embedding of the Loki observability core (`src/core.py`) and proofs of
the specification claims about it.

Conventions of the embedding:
* Python numbers are modelled exactly: `float`/`int` seconds become `ℚ`,
  Python `int(...)` truncation toward zero becomes `pyInt`.
* `datetime` values are modelled at their real resolution, an integer count of
  microseconds since the Unix epoch.
* Python dicts with string keys are modelled as insertion-ordered association
  lists; `dict.get` is first-match lookup and `{**a, **b}` is `dictMerge`.
* Network effects are modelled by passing the transport outcome (status and
  body, timeout, or transport error) as an explicit argument; "no exception
  escapes" is modelled by the operations being total functions.
-/

namespace Loki

/-- Python `int()` applied to an exact rational: truncation toward zero. -/
def pyInt (q : ℚ) : Int :=
  if 0 ≤ q then ⌊q⌋ else ⌈q⌉

/-- Decimal rendering of a natural number (big-endian digit characters, via
`Nat.digits`); models Python `str` on a nonnegative integer. -/
def pyStrNat (n : Nat) : String :=
  if n = 0 then "0"
  else String.mk ((Nat.digits 10 n).reverse.map (fun d => Char.ofNat (48 + d)))

/-- Decimal rendering of an integer; models Python `str` on an `int`. -/
def pyStrInt (i : Int) : String :=
  if i < 0 then "-" ++ pyStrNat i.natAbs else pyStrNat i.toNat

/-- Value of a decimal digit character, `none` on anything else. -/
def decDigit? (c : Char) : Option Nat :=
  if 48 ≤ c.toNat ∧ c.toNat ≤ 57 then some (c.toNat - 48) else none

/-- Read a big-endian list of decimal digit characters. -/
def parseDigits : List Char → Option (List Nat)
  | [] => some []
  | c :: cs =>
    match decDigit? c, parseDigits cs with
    | some d, some ds => some (d :: ds)
    | _, _ => none

/-- Read a nonempty decimal numeral as a natural number. -/
def parseDecimalNat (s : String) : Option Nat :=
  (parseDigits s.data).bind
    (fun ds => if ds = [] then none else some (Nat.ofDigits 10 ds.reverse))

/-- Read an optionally `-`-signed decimal numeral as an integer. -/
def parseDecimalInt (s : String) : Option Int :=
  if s.data.head? = some (Char.ofNat 45) then
    (parseDecimalNat (String.mk s.data.tail)).map (fun n => -(n : Int))
  else if s.data = [] then none
  else (parseDecimalNat s).map (fun n => (n : Int))

/-- A Python `datetime`: an integer count of microseconds since the epoch
(Python datetimes have microsecond resolution). -/
structure Datetime where
  us : Int
deriving DecidableEq

/-- `datetime.timestamp()`: seconds since the epoch, exact. -/
def Datetime.timestamp (d : Datetime) : ℚ :=
  (d.us : ℚ) / 1000000

/-- The calendar time as an integer count of nanoseconds since the epoch. -/
def Datetime.nsSinceEpoch (d : Datetime) : Int :=
  1000 * d.us

/-- `datetime.fromtimestamp(secs, tz=utc)`: rounds to the nearest microsecond. -/
def datetimeFromTimestamp (secs : ℚ) : Datetime :=
  ⟨round (secs * 1000000)⟩

/-- The `"timestamp"` field of a log dict as `push_logs` inspects it:
a `datetime`, a number (Python `int` or `float`, in seconds), absent,
or some other value (both of the last two take the fallback branch). -/
inductive TsField where
  | dt (d : Datetime)
  | num (secs : ℚ)
  | missing
  | other (raw : String)
deriving DecidableEq

/-- The `"message"` field of a log dict: either a string, or anything else
(absent included), in which case `push_logs` serializes the whole dict;
the serialized text is carried as data. -/
inductive MsgField where
  | str (s : String)
  | nonstr (serializedDict : String)
deriving DecidableEq

/-- One element of the `logs` list handed to `push_logs`: a Python dict with
a `"timestamp"` entry, a `"message"` entry, and arbitrary further entries
(only the first two are ever read by `push_logs`). -/
structure LogDict where
  timestamp : TsField
  message : MsgField
  extra : List (String × String) := []
deriving DecidableEq

/-- Python `dict.get(k)` on a string dict: value of the first matching key. -/
def dictGet : List (String × String) → String → Option String
  | [], _ => none
  | (k₀, v₀) :: rest, k => if k₀ = k then some v₀ else dictGet rest k

/-- Insert a key/value pair into an insertion-ordered dict: replace the value
in place if the key is present, append otherwise (CPython dict update). -/
def dictInsert : List (String × String) → String → String → List (String × String)
  | [], k, v => [(k, v)]
  | (k₀, v₀) :: rest, k, v =>
    if k₀ = k then (k, v) :: rest else (k₀, v₀) :: dictInsert rest k v

/-- Python `{**base, **override}`: start from `base` and insert every pair of
`override` in order, so `override` wins key by key. -/
def dictMerge (base override : List (String × String)) : List (String × String) :=
  override.foldl (fun acc kv => dictInsert acc kv.1 kv.2) base

/-- The three environment variables `push_logs` consults for default labels. -/
structure EnvVars where
  serviceName : Option String
  environment : Option String
  hostname : Option String
deriving DecidableEq

/-- The default label dict built by `push_logs` (`os.getenv` with defaults). -/
def defaultLabels (env : EnvVars) : List (String × String) :=
  [("service", env.serviceName.getD "fastapi-connect"),
   ("environment", env.environment.getD "development"),
   ("instance", env.hostname.getD "unknown")]

/-- The stream label dict of a push: defaults merged with the caller labels,
`stream_labels = {**default_labels, **(labels or {})}`. -/
def buildStreamLabels (env : EnvVars) (labels : Option (List (String × String))) :
    List (String × String) :=
  dictMerge (defaultLabels env) (labels.getD [])

/-- Per-record timestamp normalization of `push_logs`: a `datetime` becomes
nanoseconds since epoch, a number is taken as seconds and scaled by `1e9`,
anything else falls back to the prepared encode-time string. -/
def encodeTimestamp (ts : TsField) (current_time_ns : String) : String :=
  match ts with
  | .dt d => pyStrInt (pyInt (d.timestamp * 1000000000))
  | .num secs => pyStrInt (pyInt (secs * 1000000000))
  | .missing => current_time_ns
  | .other _ => current_time_ns

/-- Per-record message extraction of `push_logs`: a string is used as the
line, anything else is replaced by the serialized dict. -/
def encodeMessage (m : MsgField) : String :=
  match m with
  | .str s => s
  | .nonstr serializedDict => serializedDict

/-- One wire pair `[timestamp_ns, line]` of the push payload. -/
def encodeEntry (log : LogDict) (current_time_ns : String) : String × String :=
  (encodeTimestamp log.timestamp current_time_ns, encodeMessage log.message)

/-- The `values` loop of `push_logs`: append one wire pair per record. -/
def encodeValues (logs : List LogDict) (current_time_ns : String) :
    List (String × String) :=
  logs.foldl (fun values log => values ++ [encodeEntry log current_time_ns]) []

/-- Modelled from the spec: the repository has no decoder for wire pairs under
src (query responses are passed through unchanged by `query_logs`), so the
decode direction of the wire codec follows the spec text for
`[timestamp_as_decimal_string_nanoseconds, line]` pairs: the timestamp string
is read as the decimal integer count of nanoseconds it denotes and the line is
returned unchanged. -/
def decodeWirePair (p : String × String) : Option (Int × String) :=
  (parseDecimalInt p.1).map (fun n => (n, p.2))

/-- A stream of the push payload: a label dict and the wire pairs. -/
structure LogStream where
  stream : List (String × String)
  values : List (String × String)
deriving DecidableEq

/-- The Loki push API request body. -/
structure LokiPushRequest where
  streams : List LogStream
deriving DecidableEq

/-- Outcome of the HTTP POST issued by `push_logs`: a response with a status
code and body text, an `asyncio.TimeoutError`, or any other raised error. -/
inductive HttpOutcome where
  | response (status : Nat) (body : String)
  | timeout
  | transportError (msg : String)
deriving DecidableEq

/-- What a `push_logs` call did: the request it POSTed (if any) and the
boolean it returned. -/
structure PushResult where
  posted : Option LokiPushRequest
  success : Bool
deriving DecidableEq

/-- `LokiClient.push_logs`: build the label dict and the wire values, POST one
single-stream request, return `true` exactly on status 204; a timeout or any
raised transport error is caught and yields `false` (the function is total:
no exception escapes). `now` is the encode-time wall clock in seconds. -/
def pushLogs (env : EnvVars) (logs : List LogDict)
    (labels : Option (List (String × String))) (now : ℚ) (net : HttpOutcome) :
    PushResult :=
  let stream_labels := buildStreamLabels env labels
  let current_time_ns := pyStrInt (pyInt (now * 1000000000))
  let values := encodeValues logs current_time_ns
  let push_request : LokiPushRequest :=
    { streams := [{ stream := stream_labels, values := values }] }
  match net with
  | .response status _ =>
    { posted := some push_request, success := if status = 204 then true else false }
  | .timeout => { posted := some push_request, success := false }
  | .transportError _ => { posted := some push_request, success := false }

/-- Minimal JSON values, for the bodies of query responses. -/
inductive Json where
  | null
  | bool (b : Bool)
  | num (n : Int)
  | str (s : String)
  | arr (elems : List Json)
  | obj (fields : List (String × Json))

/-- First-match lookup among the fields of a JSON object. -/
def jGetFields : List (String × Json) → String → Option Json
  | [], _ => none
  | (k₀, v) :: rest, k => if k₀ = k then some v else jGetFields rest k

/-- `dict.get(k)` on a JSON object: first-match lookup, `none` on non-objects. -/
def jGet : Json → String → Option Json
  | .obj fields, k => jGetFields fields k
  | _, _ => none

/-- The parsed `LokiQueryResponse` model: a status string and the `data`
payload, passed through unchanged. -/
structure LokiQueryResponse where
  status : String
  data : Json

/-- Outcome of the HTTP GET issued by `query_logs`: a response whose body
either parses as JSON or not, or a raised error. -/
inductive QueryOutcome where
  | response (status : Nat) (body : Except String Json) (text : String)
  | failure (msg : String)

/-- The query parameters `query_logs` sends: `query`, `limit`, `direction`,
and `start`/`end` as nanosecond strings only when supplied. -/
def queryParams (q : String) (start end_ : Option Datetime) (limit : Nat)
    (direction : String) : List (String × String) :=
  [("query", q), ("limit", pyStrNat limit), ("direction", direction)]
    ++ (match start with
        | some s => [("start", pyStrInt (pyInt (s.timestamp * 1000000000)))]
        | none => [])
    ++ (match end_ with
        | some e => [("end", pyStrInt (pyInt (e.timestamp * 1000000000)))]
        | none => [])

/-- Result of evaluating `await response.json()` in `query_logs`: httpx
`Response.json()` is a synchronous method, so the call itself returns the
parsed body (or raises on a malformed one), and awaiting the returned plain
value then raises `TypeError`, because a dict is not awaitable. The
`get_labels` operation guards against exactly this with an awaitable check;
`query_logs` does not. -/
def awaitSyncJson (body : Except String Json) : Except String Json :=
  match body with
  | .error e => .error e
  | .ok _ => .error "TypeError: object dict cannot be used in await expression"

/-- `LokiClient.query_logs`: on status 200 the code runs
`result = await response.json()`; with the synchronous httpx `json()` this
raises `TypeError` into the catch-all handler, so the parse branch below it
is unreachable and every 200 response yields `none`. The parse branch is
still embedded as written: for an object body the model is built with
`status = result.get("status", "success")` and `data = result.get("data", ...)`,
while a non-object result, a non-string status or a non-object data value
(attribute error or model validation, caught by the handler) yields `none`;
a non-200 status or any raised transport error also yields `none`, never an
exception. -/
def queryLogs (q : String) (start end_ : Option Datetime) (limit : Nat)
    (direction : String) (net : QueryOutcome) : Option LokiQueryResponse :=
  match net with
  | .failure _ => none
  | .response status body _ =>
    if status = 200 then
      match awaitSyncJson body with
      | .error _ => none
      | .ok j =>
        match j with
        | .obj fields =>
          match (jGetFields fields "status").getD (.str "success"),
                (jGetFields fields "data").getD (.obj []) with
          | .str s, .obj dataFields => some { status := s, data := .obj dataFields }
          | _, _ => none
        | _ => none
    else none

/-- The response body of the empty-result query scenario. -/
def sampleQueryBody : Json :=
  Json.obj [("status", Json.str "success"), ("data", Json.obj [("result", Json.arr [])])]

/-- The fields of a `logging.LogRecord` that the handler reads; `formatted`
is the result of `self.format(record)` (external formatter). -/
structure PyLogRecord where
  created : ℚ
  formatted : String
  levelname : String
  name : String
  module : String
  funcName : String
  lineno : Nat
deriving DecidableEq

/-- A concrete log record, used as input for the evaluation theorems. -/
def sampleRecord : PyLogRecord :=
  { created := 0, formatted := "hello", levelname := "INFO", name := "app",
    module := "core", funcName := "run", lineno := 1 }

/-- The log-entry dict built by `FastAPILokiHandler.emit` for one record. -/
def mkLogEntry (r : PyLogRecord) : LogDict :=
  { timestamp := .dt (datetimeFromTimestamp r.created),
    message := .str r.formatted,
    extra := [("level", r.levelname), ("logger", r.name), ("module", r.module),
              ("function", r.funcName), ("line", pyStrNat r.lineno)] }

/-- The mutable state of a `FastAPILokiHandler`: the pending buffer, the
capacity and interval thresholds, and the last-flush wall-clock time. -/
structure HandlerState where
  log_buffer : List LogDict
  buffer_size : Nat
  last_flush : ℚ
  flush_interval : ℚ
deriving DecidableEq

/-- `FastAPILokiHandler.__init__`: empty buffer, capacity 50, interval 5
seconds, last-flush time set to the construction time `t0`. -/
def initHandler (t0 : ℚ) : HandlerState :=
  { log_buffer := [], buffer_size := 50, last_flush := t0, flush_interval := 5 }

/-- `FastAPILokiHandler.flush_async`, synchronous part: if the buffer is
empty, do nothing; otherwise swap the buffer out (copy and clear), stamp the
swap time as the new last-flush time, and hand the swapped records to the
background push. Returns the new state and the swapped-out batch, if any. -/
def flush_async (s : HandlerState) (now : ℚ) :
    HandlerState × Option (List LogDict) :=
  if s.log_buffer = [] then (s, none)
  else ({ s with log_buffer := [], last_flush := now }, some s.log_buffer)

/-- `FastAPILokiHandler.emit`: build the entry dict, append it to the buffer,
then flush when the buffer has reached capacity or the interval since the
last flush has elapsed. `now` is the wall clock at the trigger check and at
the swap. Returns the new state and the flushed batch, if any. -/
def emit (s : HandlerState) (r : PyLogRecord) (now : ℚ) :
    HandlerState × Option (List LogDict) :=
  if s.buffer_size ≤ (s.log_buffer ++ [mkLogEntry r]).length
      ∨ s.flush_interval ≤ now - s.last_flush then
    flush_async { s with log_buffer := s.log_buffer ++ [mkLogEntry r] } now
  else
    ({ s with log_buffer := s.log_buffer ++ [mkLogEntry r] }, none)

/-- A sequence of `emit` calls, each with its own wall-clock time, collecting
every flushed batch in order. -/
def emitSeq : HandlerState → List (PyLogRecord × ℚ) → HandlerState × List (List LogDict)
  | s, [] => (s, [])
  | s, (r, t) :: rest =>
    ((emitSeq (emit s r t).1 rest).1,
     (emit s r t).2.toList ++ (emitSeq (emit s r t).1 rest).2)

/-- Outcome of the background push spawned by a flush: success, a `false`
return, a timeout, or a raised exception. -/
inductive PushOutcome where
  | ok
  | failed
  | timeout
  | err (msg : String)
deriving DecidableEq

/-- The `_background_flush` body: the push outcome is only turned into a
diagnostic boolean; failed records are never re-added to the buffer. -/
def backgroundFlushResult (po : PushOutcome) : Bool :=
  match po with
  | .ok => true
  | .failed => false
  | .timeout => false
  | .err _ => false

/-- One whole flush round: the synchronous swap followed by the background
push with outcome `po`. Returns the state after the swap (the background
work never touches the buffer again) and the diagnostic result, if a batch
was sent at all. -/
def flushRound (s : HandlerState) (now : ℚ) (po : PushOutcome) :
    HandlerState × Option Bool :=
  match flush_async s now with
  | (s₁, none) => (s₁, none)
  | (s₁, some _) => (s₁, some (backgroundFlushResult po))

/-- The configured Loki client object (`LokiClient.__init__`). -/
structure LokiClientM where
  loki_url : String
  tenant_id : Option String
  timeout : ℚ
  headers : List (String × String)
deriving DecidableEq

/-- `config.LOKI_URL` fallback default. -/
def configLokiUrl : String := "http://localhost:3100"

/-- `LokiClient.__init__`: resolve the URL against the config default and add
the multi-tenant header when a tenant id is given. -/
def mkLokiClient (loki_url tenant_id : Option String) (timeout : ℚ)
    (headers : Option (List (String × String))) : LokiClientM :=
  let hs := headers.getD []
  { loki_url := loki_url.getD configLokiUrl,
    tenant_id := tenant_id,
    timeout := timeout,
    headers := match tenant_id with
      | some t => dictInsert hs "X-Scope-OrgID" t
      | none => hs }

/-- `get_loki_client`: raise `RuntimeError` when the global client is unset,
return the stored client otherwise. -/
def getLokiClient (global : Option LokiClientM) : Except String LokiClientM :=
  match global with
  | none => Except.error "Loki client not initialized. Call init_loki first."
  | some c => Except.ok c

/-- What `init_loki` produced: the returned client, the new value of the
global handle, and whether the logging handler was installed. -/
structure InitLokiResult where
  client : LokiClientM
  newGlobal : Option LokiClientM
  handlerInstalled : Bool
deriving DecidableEq

/-- `init_loki`: construct the client (default timeout 30), store it in the
global handle, and install the handler when `enable_handler` is set. -/
def initLoki (loki_url tenant_id : Option String) (enable_handler : Bool) :
    InitLokiResult :=
  let c := mkLokiClient loki_url tenant_id 30 none
  { client := c, newGlobal := some c, handlerInstalled := enable_handler }

/-! ### Arithmetic and decimal-numeral lemmas -/

theorem pyInt_intCast (n : Int) : pyInt (n : ℚ) = n := by
  rcases le_or_lt 0 (n : ℚ) with h | h
  · rw [pyInt, if_pos h, Int.floor_intCast]
  · rw [pyInt, if_neg (not_le.mpr h), Int.ceil_intCast]

theorem timestamp_mul_ns (d : Datetime) :
    (d.timestamp * 1000000000 : ℚ) = ((d.nsSinceEpoch : Int) : ℚ) := by
  rw [Datetime.timestamp, Datetime.nsSinceEpoch]
  push_cast
  field_simp
  ring

theorem pyInt_timestamp (d : Datetime) :
    pyInt (d.timestamp * 1000000000) = d.nsSinceEpoch := by
  rw [timestamp_mul_ns, pyInt_intCast]

theorem decDigit_char (d : Nat) (hd : d < 10) :
    decDigit? (Char.ofNat (48 + d)) = some d := by
  revert hd
  revert d
  decide

theorem parseDigits_map_char (ds : List Nat) (h : ∀ d ∈ ds, d < 10) :
    parseDigits (ds.map fun d => Char.ofNat (48 + d)) = some ds := by
  induction ds with
  | nil => rfl
  | cons d rest ih =>
    have hd := decDigit_char d (h d (List.mem_cons_self d rest))
    have hr := ih (fun x hx => h x (List.mem_cons_of_mem d hx))
    simp [parseDigits, hd, hr]

theorem parseDecimalNat_pyStrNat (n : Nat) : parseDecimalNat (pyStrNat n) = some n := by
  rcases eq_or_ne n 0 with h | h
  · subst h
    rfl
  · have hdig : ∀ d ∈ (Nat.digits 10 n).reverse, d < 10 := fun d hd =>
      Nat.digits_lt_base (by norm_num) (List.mem_reverse.mp hd)
    have hparse := parseDigits_map_char (Nat.digits 10 n).reverse hdig
    have hne : (Nat.digits 10 n).reverse ≠ [] := by
      simp only [ne_eq, List.reverse_eq_nil_iff]
      exact Nat.digits_ne_nil_iff_ne_zero.mpr h
    rw [pyStrNat, if_neg h, parseDecimalNat]
    have hdata : (String.mk ((Nat.digits 10 n).reverse.map fun d => Char.ofNat (48 + d))).data
        = (Nat.digits 10 n).reverse.map fun d => Char.ofNat (48 + d) := rfl
    rw [hdata, hparse]
    simp only [Option.some_bind]
    rw [if_neg hne, List.reverse_reverse, Nat.ofDigits_digits]

theorem pyStrNat_head (m : Nat) :
    ∃ d rest, (pyStrNat m).data = Char.ofNat (48 + d) :: rest ∧ d < 10 := by
  rcases eq_or_ne m 0 with h | h
  · subst h
    exact ⟨0, [], rfl, by norm_num⟩
  · have hne : (Nat.digits 10 m).reverse ≠ [] := by
      simp only [ne_eq, List.reverse_eq_nil_iff]
      exact Nat.digits_ne_nil_iff_ne_zero.mpr h
    obtain ⟨d, ds, hds⟩ := List.exists_cons_of_ne_nil hne
    refine ⟨d, ds.map fun x => Char.ofNat (48 + x), ?_, ?_⟩
    · rw [pyStrNat, if_neg h]
      show ((Nat.digits 10 m).reverse.map fun x => Char.ofNat (48 + x)) = _
      rw [hds]
      rfl
    · have hmem : d ∈ (Nat.digits 10 m).reverse := by
        rw [hds]
        exact List.mem_cons_self d ds
      exact Nat.digits_lt_base (by norm_num) (List.mem_reverse.mp hmem)

theorem parseDecimalInt_pyStrInt (i : Int) : parseDecimalInt (pyStrInt i) = some i := by
  rcases lt_or_le i 0 with h | h
  · rw [pyStrInt, if_pos h, parseDecimalInt]
    have hdata : ("-" ++ pyStrNat i.natAbs).data
        = Char.ofNat 45 :: (pyStrNat i.natAbs).data := by
      rw [String.data_append]
      rfl
    rw [hdata]
    have hcond : (Char.ofNat 45 :: (pyStrNat i.natAbs).data).head? = some (Char.ofNat 45) := rfl
    rw [if_pos hcond, List.tail_cons]
    have heta : String.mk (pyStrNat i.natAbs).data = pyStrNat i.natAbs := rfl
    rw [heta, parseDecimalNat_pyStrNat]
    show some (-(i.natAbs : Int)) = some i
    congr 1
    omega
  · rw [pyStrInt, if_neg (not_lt.mpr h)]
    obtain ⟨d, rest, hdata, hd⟩ := pyStrNat_head i.toNat
    have hnotdash : ∀ x : Nat, x < 10 → Char.ofNat (48 + x) ≠ Char.ofNat 45 := by decide
    rw [parseDecimalInt, hdata]
    rw [if_neg (by simp only [List.head?_cons, Option.some.injEq]; exact hnotdash d hd)]
    rw [if_neg (by simp)]
    rw [parseDecimalNat_pyStrNat]
    show some ((i.toNat : Int)) = some i
    congr 1
    omega

/-! ### Dict lemmas -/

theorem dictGet_eq_none (m : List (String × String)) (k : String)
    (h : k ∉ m.map Prod.fst) : dictGet m k = none := by
  induction m with
  | nil => rfl
  | cons p rest ih =>
    obtain ⟨k₀, v₀⟩ := p
    simp only [List.map_cons, List.mem_cons] at h
    push_neg at h
    have hk : k₀ ≠ k := fun hh => h.1 hh.symm
    simp [dictGet, hk, ih h.2]

theorem dictGet_dictInsert (m : List (String × String)) (k v k₁ : String) :
    dictGet (dictInsert m k v) k₁ = if k = k₁ then some v else dictGet m k₁ := by
  induction m with
  | nil => simp [dictInsert, dictGet]
  | cons p rest ih =>
    obtain ⟨k₀, v₀⟩ := p
    by_cases h₀ : k₀ = k
    · subst h₀
      by_cases h₁ : k₀ = k₁ <;> simp [dictInsert, dictGet, h₁]
    · by_cases h₁ : k₀ = k₁
      · subst h₁
        have hk : ¬k = k₀ := fun hh => h₀ hh.symm
        simp [dictInsert, dictGet, h₀, hk]
      · simp [dictInsert, dictGet, h₀, h₁, ih]

theorem dictGet_dictMerge (base o : List (String × String)) (k : String)
    (h : (o.map Prod.fst).Nodup) :
    dictGet (dictMerge base o) k = (dictGet o k).or (dictGet base k) := by
  induction o generalizing base with
  | nil => simp [dictMerge, dictGet]
  | cons p rest ih =>
    obtain ⟨k₀, v₀⟩ := p
    have hnd : (rest.map Prod.fst).Nodup := (List.nodup_cons.mp h).2
    have hnotin : k₀ ∉ rest.map Prod.fst := (List.nodup_cons.mp h).1
    have step : dictMerge base ((k₀, v₀) :: rest) = dictMerge (dictInsert base k₀ v₀) rest := rfl
    rw [step, ih (dictInsert base k₀ v₀) hnd, dictGet_dictInsert]
    by_cases hk : k₀ = k
    · subst hk
      rw [dictGet_eq_none rest k₀ hnotin]
      simp [dictGet]
    · simp [dictGet, hk]

theorem dictInsert_eq_self (m : List (String × String)) (k v : String)
    (h : dictGet m k = some v) : dictInsert m k v = m := by
  induction m with
  | nil => simp [dictGet] at h
  | cons p rest ih =>
    obtain ⟨k₀, v₀⟩ := p
    by_cases hk : k₀ = k
    · subst hk
      have hv : v₀ = v := by
        simpa [dictGet] using h
      simp [dictInsert, hv]
    · have h₂ : dictGet rest k = some v := by
        simpa [dictGet, hk] using h
      simp [dictInsert, hk, ih h₂]

theorem dictGet_of_mem_nodup (m : List (String × String)) (k v : String)
    (hnd : (m.map Prod.fst).Nodup) (hm : (k, v) ∈ m) : dictGet m k = some v := by
  induction m with
  | nil => simp at hm
  | cons p rest ih =>
    obtain ⟨k₀, v₀⟩ := p
    rcases List.mem_cons.mp hm with h | h
    · injection h with h1 h2
      subst h1
      subst h2
      simp [dictGet]
    · have hk : k₀ ≠ k := by
        intro hh
        apply (List.nodup_cons.mp hnd).1
        rw [hh]
        exact List.mem_map.mpr ⟨(k, v), h, rfl⟩
      simp [dictGet, hk, ih (List.nodup_cons.mp hnd).2 h]

theorem foldl_dictInsert_eq_self (l m : List (String × String))
    (h : ∀ kv ∈ l, dictGet m kv.1 = some kv.2) :
    l.foldl (fun acc kv => dictInsert acc kv.1 kv.2) m = m := by
  induction l with
  | nil => rfl
  | cons p rest ih =>
    rw [List.foldl_cons, dictInsert_eq_self m p.1 p.2 (h p (List.mem_cons_self p rest))]
    exact ih (fun kv hkv => h kv (List.mem_cons_of_mem p hkv))

theorem dictMerge_self (m : List (String × String)) (hnd : (m.map Prod.fst).Nodup) :
    dictMerge m m = m :=
  foldl_dictInsert_eq_self m m (fun kv hkv => dictGet_of_mem_nodup m kv.1 kv.2 hnd hkv)

/-! ### Wire-encoding lemmas -/

theorem foldl_append_map (f : LogDict → String × String) (logs : List LogDict)
    (acc : List (String × String)) :
    logs.foldl (fun vs log => vs ++ [f log]) acc = acc ++ logs.map f := by
  induction logs generalizing acc with
  | nil => simp
  | cons l rest ih => simp [ih]

theorem encodeValues_eq_map (logs : List LogDict) (c : String) :
    encodeValues logs c = logs.map (fun log => encodeEntry log c) := by
  rw [encodeValues, foldl_append_map]
  exact List.nil_append _

theorem encodeValues_length (logs : List LogDict) (c : String) :
    (encodeValues logs c).length = logs.length := by
  rw [encodeValues_eq_map, List.length_map]

/-! ### Handler buffer lemmas -/

theorem flush_async_of_ne (s : HandlerState) (now : ℚ) (h : s.log_buffer ≠ []) :
    flush_async s now =
      ({ s with log_buffer := [], last_flush := now }, some s.log_buffer) := by
  rw [flush_async, if_neg h]

theorem emit_no_flush (s : HandlerState) (r : PyLogRecord) (now : ℚ)
    (hlen : s.log_buffer.length + 1 < s.buffer_size)
    (htime : now - s.last_flush < s.flush_interval) :
    emit s r now = ({ s with log_buffer := s.log_buffer ++ [mkLogEntry r] }, none) := by
  have hc : ¬(s.buffer_size ≤ (s.log_buffer ++ [mkLogEntry r]).length
      ∨ s.flush_interval ≤ now - s.last_flush) := by
    push_neg
    refine ⟨?_, htime⟩
    simpa using hlen
  rw [emit, if_neg hc]

theorem emitSeq_cons (s : HandlerState) (r : PyLogRecord) (t : ℚ)
    (rest : List (PyLogRecord × ℚ)) :
    emitSeq s ((r, t) :: rest) =
      ((emitSeq (emit s r t).1 rest).1,
       (emit s r t).2.toList ++ (emitSeq (emit s r t).1 rest).2) := rfl

theorem emitSeq_no_flush (es : List (PyLogRecord × ℚ)) (s : HandlerState)
    (hlen : s.log_buffer.length + es.length < s.buffer_size)
    (htime : ∀ p ∈ es, p.2 - s.last_flush < s.flush_interval) :
    emitSeq s es =
      ({ s with log_buffer := s.log_buffer ++ es.map (fun p => mkLogEntry p.1) }, []) := by
  induction es generalizing s with
  | nil => simp [emitSeq]
  | cons p rest ih =>
    obtain ⟨r, t⟩ := p
    have h1 : emit s r t = ({ s with log_buffer := s.log_buffer ++ [mkLogEntry r] }, none) := by
      refine emit_no_flush s r t ?_ (htime (r, t) (List.mem_cons_self _ _))
      simp only [List.length_cons] at hlen
      omega
    have h2 := ih { s with log_buffer := s.log_buffer ++ [mkLogEntry r] }
      (by simp at hlen ⊢; omega)
      (fun q hq => htime q (List.mem_cons_of_mem _ hq))
    rw [emitSeq_cons, h1, h2]
    simp [List.append_assoc]

theorem emitSeq_append (xs ys : List (PyLogRecord × ℚ)) (s : HandlerState) :
    emitSeq s (xs ++ ys) =
      ((emitSeq (emitSeq s xs).1 ys).1,
       (emitSeq s xs).2 ++ (emitSeq (emitSeq s xs).1 ys).2) := by
  induction xs generalizing s with
  | nil => simp [emitSeq]
  | cons p rest ih =>
    obtain ⟨r, t⟩ := p
    simp only [List.cons_append, emitSeq_cons, ih]
    simp [List.append_assoc]

theorem flushRound_fst (s : HandlerState) (now : ℚ) (po : PushOutcome) :
    (flushRound s now po).1 = (flush_async s now).1 := by
  rcases h : flush_async s now with ⟨s₁, _ | _⟩ <;> simp [flushRound, h]

/-! ### Claim theorems -/

/-- Claim C1: starting from a freshly initialized handler, emitting N records
with N below the capacity threshold of 50, all while the elapsed time since
the last flush stays below the 5-second interval, flushes nothing and leaves
exactly those N entries in the buffer; emitting the record that makes the
count reach 50 triggers exactly one flush, which drains the buffer to empty
and resets the last-flush time to the swap time. -/
theorem C1_buffer_capacity_trigger (t0 : ℚ) (es : List (PyLogRecord × ℚ))
    (htime : ∀ p ∈ es, p.2 - t0 < 5) :
    (es.length < 50 →
      emitSeq (initHandler t0) es =
        ({ log_buffer := es.map (fun p => mkLogEntry p.1), buffer_size := 50,
           last_flush := t0, flush_interval := 5 }, []))
    ∧ (∀ pre p, es = pre ++ [p] → es.length = 50 →
      emitSeq (initHandler t0) es =
        ({ log_buffer := [], buffer_size := 50, last_flush := p.2,
           flush_interval := 5 }, [es.map (fun q => mkLogEntry q.1)])) := by
  constructor
  · intro hlen
    have h := emitSeq_no_flush es (initHandler t0)
      (by simpa [initHandler] using hlen) (by simpa [initHandler] using htime)
    simpa [initHandler] using h
  · rintro pre p rfl hlen
    have hpre : pre.length = 49 := by
      simp only [List.length_append, List.length_cons, List.length_nil] at hlen
      omega
    have htpre : ∀ q ∈ pre, q.2 - t0 < 5 := fun q hq => htime q (List.mem_append_left _ hq)
    have h1 : emitSeq (initHandler t0) pre =
        ({ log_buffer := pre.map (fun q => mkLogEntry q.1), buffer_size := 50,
           last_flush := t0, flush_interval := 5 }, []) := by
      have h := emitSeq_no_flush pre (initHandler t0)
        (by simp [initHandler]; omega) (by simpa [initHandler] using htpre)
      simpa [initHandler] using h
    obtain ⟨r, t⟩ := p
    have hemit : emit
        ({ log_buffer := pre.map (fun q => mkLogEntry q.1), buffer_size := 50,
           last_flush := t0, flush_interval := 5 } : HandlerState) r t =
        ({ log_buffer := [], buffer_size := 50, last_flush := t, flush_interval := 5 },
         some (pre.map (fun q => mkLogEntry q.1) ++ [mkLogEntry r])) := by
      rw [emit, if_pos (Or.inl (by simp [hpre]))]
      rw [flush_async, if_neg (by simp)]
    rw [emitSeq_append, h1]
    rw [emitSeq_cons, hemit]
    simp [emitSeq]

/-- Claim C1 witness: a run of 50 identical records at the construction time
flushes exactly once and drains the buffer; a run of one record flushes
nothing and leaves that entry buffered. -/
theorem C1_buffer_capacity_trigger_witness :
    emitSeq (initHandler 0) (List.replicate 49 (sampleRecord, (0 : ℚ)) ++ [(sampleRecord, 0)]) =
      ({ log_buffer := [], buffer_size := 50, last_flush := 0, flush_interval := 5 },
       [(List.replicate 49 (sampleRecord, (0 : ℚ)) ++ [(sampleRecord, 0)]).map
          (fun q : PyLogRecord × ℚ => mkLogEntry q.1)])
    ∧ emitSeq (initHandler 0) [(sampleRecord, (0 : ℚ))] =
      ({ log_buffer := [mkLogEntry sampleRecord], buffer_size := 50, last_flush := 0,
         flush_interval := 5 }, []) :=
  ⟨(C1_buffer_capacity_trigger 0 _ (by
      intro p hp
      have hp0 : p = (sampleRecord, (0 : ℚ)) := by
        rcases List.mem_append.mp hp with h | h
        · exact List.eq_of_mem_replicate h
        · simpa using h
      rw [hp0]
      norm_num)).2
      (List.replicate 49 (sampleRecord, 0)) (sampleRecord, 0) rfl (by decide),
   (C1_buffer_capacity_trigger 0 [(sampleRecord, 0)] (by
      intro p hp
      have hp0 : p = (sampleRecord, (0 : ℚ)) := by simpa using hp
      rw [hp0]
      norm_num)).1 (by decide)⟩

/-- Claim C2: `push_logs` returns true exactly when the backend answers the
POST with status 204; any other status code, a timeout, or a transport error
yields false, and the operation is a total function of its transport outcome,
so no exception reaches the caller. -/
theorem C2_push_success_iff_204 (env : EnvVars) (logs : List LogDict)
    (labels : Option (List (String × String))) (now : ℚ) (net : HttpOutcome) :
    (pushLogs env logs labels now net).success = true ↔
      ∃ body, net = HttpOutcome.response 204 body := by
  cases net with
  | response status body =>
    by_cases h : status = 204
    · subst h
      simp [pushLogs]
    · simp [pushLogs, h]
  | timeout => simp [pushLogs]
  | transportError msg => simp [pushLogs]

/-- Claim C3: after the flush swap the handler state does not depend on the
outcome of the background push in any way, the swapped records leave the
buffer for good, and the buffer subsequently holds exactly the records
enqueued after the swap. -/
theorem C3_drop_on_failure (s : HandlerState) (now : ℚ) (po po₁ : PushOutcome)
    (es : List (PyLogRecord × ℚ))
    (hne : s.log_buffer ≠ [])
    (hlen : es.length < s.buffer_size)
    (htime : ∀ p ∈ es, p.2 - now < s.flush_interval) :
    (flushRound s now po).1 = (flushRound s now po₁).1
    ∧ (flushRound s now po).1.log_buffer = []
    ∧ (emitSeq (flushRound s now po).1 es).1.log_buffer =
        es.map (fun p => mkLogEntry p.1) := by
  have hfl := flush_async_of_ne s now hne
  have h1 : (flushRound s now po).1 = { s with log_buffer := [], last_flush := now } := by
    rw [flushRound, hfl]
  have h1b : (flushRound s now po₁).1 = { s with log_buffer := [], last_flush := now } := by
    rw [flushRound, hfl]
  refine ⟨h1.trans h1b.symm, by rw [h1], ?_⟩
  rw [h1]
  have h2 := emitSeq_no_flush es { s with log_buffer := [], last_flush := now }
    (by simpa using hlen) (by simpa using htime)
  rw [h2]
  simp

/-- Claim C3 witness: with one buffered entry, a flush at time 1 followed by
one enqueue at time 2 leaves only the later entry, for both a timing-out and
a succeeding background push. -/
theorem C3_drop_on_failure_witness :
    (flushRound ⟨[mkLogEntry sampleRecord], 50, 0, 5⟩ 1 PushOutcome.timeout).1 =
      (flushRound ⟨[mkLogEntry sampleRecord], 50, 0, 5⟩ 1 PushOutcome.ok).1
    ∧ (flushRound ⟨[mkLogEntry sampleRecord], 50, 0, 5⟩ 1 PushOutcome.timeout).1.log_buffer = []
    ∧ (emitSeq (flushRound ⟨[mkLogEntry sampleRecord], 50, 0, 5⟩ 1 PushOutcome.timeout).1
        [(sampleRecord, 2)]).1.log_buffer =
      [(sampleRecord, (2 : ℚ))].map (fun p => mkLogEntry p.1) :=
  C3_drop_on_failure ⟨[mkLogEntry sampleRecord], 50, 0, 5⟩ 1 PushOutcome.timeout PushOutcome.ok
    [(sampleRecord, 2)] (by decide) (by decide) (by
      intro p hp
      have hp0 : p = (sampleRecord, (2 : ℚ)) := by simpa using hp
      rw [hp0]
      norm_num)

/-- Claim C4: the encode loop of `push_logs` maps each record to a wire pair
whose timestamp is, case by case: a calendar timestamp rendered as the
decimal integer count of nanoseconds since the epoch; a numeric timestamp
taken as seconds and scaled by 1e9 then truncated; and for a missing or
non-time value, the wall-clock time at encode time. -/
theorem C4_timestamp_normalization (logs : List LogDict) (now : ℚ) :
    encodeValues logs (pyStrInt (pyInt (now * 1000000000))) =
      logs.map (fun log =>
        (match log.timestamp with
          | TsField.dt d => pyStrInt d.nsSinceEpoch
          | TsField.num secs => pyStrInt (pyInt (secs * 1000000000))
          | TsField.missing => pyStrInt (pyInt (now * 1000000000))
          | TsField.other _ => pyStrInt (pyInt (now * 1000000000)),
         encodeMessage log.message)) := by
  rw [encodeValues_eq_map]
  refine List.map_congr_left ?_
  intro log _
  rw [encodeEntry]
  cases h : log.timestamp with
  | dt d => simp [encodeTimestamp, pyInt_timestamp]
  | num secs => simp [encodeTimestamp]
  | missing => simp [encodeTimestamp]
  | other raw => simp [encodeTimestamp]

/-- Claim C5: the stream label set of a push is the default labels merged
with the caller labels, and on any key the caller value wins over the
default; merging the defaults with themselves returns the defaults
unchanged. -/
theorem C5_label_merge (env : EnvVars) (labels : List (String × String))
    (hnd : (labels.map Prod.fst).Nodup) :
    (∀ k, dictGet (buildStreamLabels env (some labels)) k =
        (dictGet labels k).or (dictGet (defaultLabels env) k))
    ∧ buildStreamLabels env (some (defaultLabels env)) = defaultLabels env := by
  constructor
  · intro k
    rw [buildStreamLabels]
    exact dictGet_dictMerge (defaultLabels env) labels k hnd
  · rw [buildStreamLabels]
    refine dictMerge_self (defaultLabels env) ?_
    show (["service", "environment", "instance"] : List String).Nodup
    decide

/-- Claim C5 witness: a caller label overrides the default service label,
and pushing the defaults as caller labels reproduces the defaults. -/
theorem C5_label_merge_witness :
    dictGet (buildStreamLabels ⟨none, none, none⟩ (some [("service", "svc")])) "service" =
      some "svc"
    ∧ buildStreamLabels ⟨none, none, none⟩ (some (defaultLabels ⟨none, none, none⟩)) =
      defaultLabels ⟨none, none, none⟩ := by
  have h := C5_label_merge ⟨none, none, none⟩ [("service", "svc")] (by decide)
  refine ⟨?_, h.2⟩
  rw [h.1 "service"]
  rfl

/-- Claim C6 (code bug): the success half of the claim fails on the code.
Awaiting the value of the synchronous httpx json method raises TypeError
into the catch-all handler, so even a 200 response carrying the well-formed
empty-result body yields none, and so does every other 200 body; the failure
half of the claim holds: a raised transport error, a non-200 status such as
500, and a malformed body also yield none rather than an exception. -/
theorem C6_query_logs (q : String) (start end_ : Option Datetime) (limit : Nat)
    (direction : String) :
    queryLogs q start end_ limit direction
        (QueryOutcome.response 200 (Except.ok sampleQueryBody) "") = none
    ∧ (∀ body text, queryLogs q start end_ limit direction
        (QueryOutcome.response 200 body text) = none)
    ∧ (∀ msg, queryLogs q start end_ limit direction (QueryOutcome.failure msg) = none)
    ∧ (∀ body text, queryLogs q start end_ limit direction
        (QueryOutcome.response 500 body text) = none) := by
  refine ⟨rfl, ?_, fun msg => rfl, fun body text => rfl⟩
  intro body text
  cases body <;> rfl

/-- Claim C7: a flush invoked with an empty pending buffer returns without a
batch to send, spawns no background push, and leaves the whole handler state,
the last-flush time included, unchanged. -/
theorem C7_empty_flush_noop (s : HandlerState) (now : ℚ) (po : PushOutcome)
    (h : s.log_buffer = []) :
    flush_async s now = (s, none) ∧ flushRound s now po = (s, none) := by
  have h1 : flush_async s now = (s, none) := by
    rw [flush_async, if_pos h]
  exact ⟨h1, by rw [flushRound, h1]⟩

/-- Claim C7 witness: an explicit flush of a freshly initialized handler at a
later time changes nothing. -/
theorem C7_empty_flush_noop_witness :
    flush_async (initHandler 0) 3 = (initHandler 0, none)
    ∧ flushRound (initHandler 0) 3 PushOutcome.ok = (initHandler 0, none) :=
  C7_empty_flush_noop (initHandler 0) 3 PushOutcome.ok rfl

/-- Claim C8: encoding a record whose timestamp is the calendar time T and
whose message is a string, then decoding the wire pair, returns the original
message as the line and exactly T converted to nanoseconds since the epoch. -/
theorem C8_roundtrip (d : Datetime) (message : String)
    (extra : List (String × String)) (current_time_ns : String) :
    decodeWirePair (encodeEntry
        { timestamp := TsField.dt d, message := MsgField.str message, extra := extra }
        current_time_ns) =
      some (d.nsSinceEpoch, message) := by
  show decodeWirePair
      (encodeTimestamp (TsField.dt d) current_time_ns, encodeMessage (MsgField.str message)) = _
  rw [decodeWirePair]
  show (parseDecimalInt (pyStrInt (pyInt (d.timestamp * 1000000000)))).map
      (fun n => (n, message)) = _
  rw [pyInt_timestamp, parseDecimalInt_pyStrInt]
  rfl

/-- Claim C9: reading the global client before initialization reports an
error, and after `init_loki` has stored the client, reading it returns that
client without raising. -/
theorem C9_client_initialization (loki_url tenant_id : Option String)
    (enable_handler : Bool) :
    getLokiClient none =
      Except.error "Loki client not initialized. Call init_loki first."
    ∧ getLokiClient (initLoki loki_url tenant_id enable_handler).newGlobal =
        Except.ok (initLoki loki_url tenant_id enable_handler).client :=
  ⟨rfl, rfl⟩

/-- Claim C10: every `push_logs` call posts exactly one stream carrying one
wire pair per record, and an empty batch still posts one stream with zero
pairs instead of skipping the network call. -/
theorem C10_single_stream (env : EnvVars) (logs : List LogDict)
    (labels : Option (List (String × String))) (now : ℚ) (net : HttpOutcome) :
    (pushLogs env logs labels now net).posted =
      some { streams := [{ stream := buildStreamLabels env labels,
                           values := encodeValues logs (pyStrInt (pyInt (now * 1000000000))) }] }
    ∧ (encodeValues logs (pyStrInt (pyInt (now * 1000000000)))).length = logs.length
    ∧ (logs = [] → (pushLogs env logs labels now net).posted =
        some { streams := [{ stream := buildStreamLabels env labels, values := [] }] }) := by
  refine ⟨?_, encodeValues_length logs _, ?_⟩
  · cases net <;> rfl
  · rintro rfl
    cases net <;> rfl

/-- Claim C10 witness: a push of the empty batch against a timed-out backend
still posts one stream with zero value pairs. -/
theorem C10_single_stream_witness :
    (pushLogs ⟨none, none, none⟩ [] none 0 HttpOutcome.timeout).posted =
      some { streams := [{ stream := buildStreamLabels ⟨none, none, none⟩ none,
                           values := [] }] } :=
  (C10_single_stream ⟨none, none, none⟩ [] none 0 HttpOutcome.timeout).2.2 rfl

end Loki
